import Mathlib

/-
  Verification of the multi-source data aggregation and caching engine of the
  network_orb repository, shallowly embedded in Lean 4.

  JavaScript semantics are modelled as follows:
  - a JSON field that may be absent is an `Option`;
  - a fetch that may fail at the transport layer (network error, non-2xx
    status, JSON parse error) is an `Option` response: `none` stands for the
    thrown/caught failure path, `some r` for a parsed body `r`;
  - JS numbers from JSON are exact rationals; a computed number that can be
    NaN or Infinity is `Option Rat` with `none` for the non-finite values;
  - the defaulting idiom `x || d` is `jsOrQ` (and friends), in which both a
    missing value and 0 (falsy) fall back to the default;
  - JS objects used as string-keyed dictionaries are association lists built
    with `objSet` (insert-or-overwrite) and read with `objGet`.
-/

namespace NetworkOrb

/-- Lookup in a JS-object modelled as an association list (first match;
`objSet` keeps keys unique so this is the JS property read). -/
def objGet {α : Type} (m : List (String × α)) (k : String) : Option α :=
  (m.find? (fun p => p.1 == k)).map (fun p => p.2)

/-- JS property write `m[k] = v`: overwrite an existing key in place,
otherwise append (insertion order preserved, as in JS objects). -/
def objSet {α : Type} (m : List (String × α)) (k : String) (v : α) : List (String × α) :=
  if m.any (fun p => p.1 == k) then
    m.map (fun p => if p.1 == k then (k, v) else p)
  else
    m ++ [(k, v)]

/-- JS `x || d` on an optional number: `undefined`, `NaN` and `0` are falsy. -/
def jsOrQ (x : Option ℚ) (d : ℚ) : ℚ :=
  match x with
  | some v => if v = 0 then d else v
  | none => d

/-- JS `x || d` on an optional natural count: `undefined` and `0` are falsy. -/
def jsOrN (x : Option ℕ) (d : ℕ) : ℕ :=
  match x with
  | some v => if v = 0 then d else v
  | none => d

/-- JS `x || d` on an optional string: `undefined` and the empty string are falsy. -/
def jsOrS (x : Option String) (d : String) : String :=
  match x with
  | some s => if s = "" then d else s
  | none => d

/-- JS subtraction on possibly-non-finite numbers: NaN propagates. -/
def jsub (a b : Option ℚ) : Option ℚ :=
  match a, b with
  | some x, some y => some (x - y)
  | _, _ => none

/-- JS division on possibly-non-finite numbers: NaN propagates, and a zero
denominator gives Infinity or NaN, both modelled as `none`. -/
def jdiv (a b : Option ℚ) : Option ℚ :=
  match a, b with
  | some x, some y => if y = 0 then none else some (x / y)
  | _, _ => none

/-- Multiplication by a finite constant on a possibly-non-finite number. -/
def jmulC (a : Option ℚ) (c : ℚ) : Option ℚ :=
  a.map (fun x => x * c)

/-- JS integer subtraction where either side may be NaN. -/
def jsubZ (a b : Option ℤ) : Option ℤ :=
  match a, b with
  | some x, some y => some (x - y)
  | _, _ => none

/-- JS `toLowerCase` for the ASCII names the providers use, written
structurally over the character list so that concrete instances evaluate. -/
def jsToLower (s : String) : String := String.mk (s.data.map Char.toLower)

/-- JS `toUpperCase`, structural like `jsToLower`. -/
def jsToUpper (s : String) : String := String.mk (s.data.map Char.toUpper)

/-- The longest leading digit run of a character list as a number; `none` when
no digit is read. -/
def parseIntDigits (cs : List Char) : Option ℕ :=
  let ds := cs.takeWhile Char.isDigit
  if ds.isEmpty then none
  else some (ds.foldl (fun acc c => acc * 10 + (c.toNat - 48)) 0)

/-- JS `parseInt`: skip leading whitespace, optional sign, then the longest
leading digit run; NaN (`none`) when no digit is read. -/
def parseIntJs (s : String) : Option ℤ :=
  match s.data.dropWhile Char.isWhitespace with
  | '-' :: rest => (parseIntDigits rest).map (fun n => -(n : ℤ))
  | '+' :: rest => (parseIntDigits rest).map (fun n => (n : ℤ))
  | cs => (parseIntDigits cs).map (fun n => (n : ℤ))

/-- `parseInt` applied to a field that may be absent (`parseInt(undefined)` is NaN). -/
def parseIntOpt (s : Option String) : Option ℤ :=
  s.bind parseIntJs

/-- Insertion into a list sorted by the boolean relation `le`. -/
def insertSorted {α : Type} (le : α → α → Bool) (x : α) : List α → List α
  | [] => [x]
  | y :: ys => if le x y then x :: y :: ys else y :: insertSorted le x ys

/-- Insertion sort, modelling `Array.prototype.sort` with a comparator. -/
def sortByJs {α : Type} (le : α → α → Bool) : List α → List α
  | [] => []
  | x :: xs => insertSorted le x (sortByJs le xs)

theorem mem_insertSorted {α : Type} (le : α → α → Bool) (x : α) (l : List α) (y : α)
    (h : y ∈ insertSorted le x l) : y = x ∨ y ∈ l := by
  induction l with
  | nil => simpa [insertSorted] using h
  | cons z zs ih =>
    by_cases hc : le x z = true
    · rcases (by simpa [insertSorted, hc] using h : y = x ∨ y = z ∨ y ∈ zs) with h1 | h2
      · exact Or.inl h1
      · exact Or.inr (by simpa using h2)
    · rcases (by simpa [insertSorted, hc] using h : y = z ∨ y ∈ insertSorted le x zs) with h1 | h2
      · exact Or.inr (by simp [h1])
      · rcases ih h2 with h3 | h4
        · exact Or.inl h3
        · exact Or.inr (by simp [h4])

theorem mem_sortByJs {α : Type} (le : α → α → Bool) (l : List α) (y : α)
    (h : y ∈ sortByJs le l) : y ∈ l := by
  induction l with
  | nil => simp [sortByJs] at h
  | cons z zs ih =>
    rcases mem_insertSorted le z (sortByJs le zs) y h with h1 | h2
    · simp [h1]
    · exact List.mem_cons_of_mem _ (ih h2)

theorem objGet_nil {α : Type} (k : String) : objGet ([] : List (String × α)) k = none := rfl

/-! ## Identity maps (src/services/defillama.js, coingecko.js, dexscreener.js) -/

/-- One entry of `CHAIN_NAME_MAP` in src/services/defillama.js. -/
structure ChainInfo where
  defillamaName : String
  geckoId : String
  iconPath : String
  altNames : List String
deriving Repr, DecidableEq

/-- `CHAIN_NAME_MAP` from src/services/defillama.js: canonical network name to
DefiLlama chain name, CoinGecko id, icon path and alternate names. -/
def CHAIN_NAME_MAP : List (String × ChainInfo) := [
  ("Ethereum", ⟨"Ethereum", "ethereum", "chains/rsz_ethereum.jpg", ["Ethereum"]⟩),
  ("Solana", ⟨"Solana", "solana", "chains/rsz_solana.jpg", ["Solana"]⟩),
  ("Bitcoin", ⟨"Bitcoin", "bitcoin", "chains/rsz_bitcoin.jpg", ["Bitcoin"]⟩),
  ("BSC", ⟨"BSC", "binancecoin", "chains/rsz_bsc.jpg", ["BSC", "BNB Chain", "Binance"]⟩),
  ("Avalanche", ⟨"Avalanche", "avalanche-2", "chains/rsz_avalanche.jpg", ["Avalanche"]⟩),
  ("Polygon", ⟨"Polygon", "matic-network", "chains/rsz_polygon.jpg", ["Polygon", "Matic"]⟩),
  ("Arbitrum", ⟨"Arbitrum", "arbitrum", "chains/rsz_arbitrum.jpg", ["Arbitrum", "Arbitrum One"]⟩),
  ("Optimism", ⟨"Optimism", "optimism", "chains/rsz_optimism.jpg", ["Optimism", "OP Mainnet"]⟩),
  ("Base", ⟨"Base", "ethereum", "chains/rsz_base.jpg", ["Base"]⟩),
  ("Sui", ⟨"Sui", "sui", "chains/rsz_sui.jpg", ["Sui"]⟩),
  ("Cardano", ⟨"Cardano", "cardano", "chains/rsz_cardano.jpg", ["Cardano"]⟩),
  ("Tron", ⟨"Tron", "tron", "chains/rsz_tron.jpg", ["Tron", "TRON"]⟩),
  ("TON", ⟨"TON", "the-open-network", "chains/rsz_ton.jpg", ["TON", "The Open Network"]⟩),
  ("Polkadot", ⟨"Polkadot", "polkadot", "chains/rsz_polkadot.jpg", ["Polkadot"]⟩),
  ("Near", ⟨"Near", "near", "chains/rsz_near.jpg", ["Near", "NEAR", "Aurora"]⟩),
  ("Fantom", ⟨"Fantom", "fantom", "chains/rsz_fantom.jpg", ["Fantom", "Sonic"]⟩),
  ("Cosmos", ⟨"CosmosHub", "cosmos", "chains/rsz_cosmos.jpg", ["Cosmos", "CosmosHub", "Cosmos Hub"]⟩),
  ("Aptos", ⟨"Aptos", "aptos", "chains/rsz_aptos.jpg", ["Aptos"]⟩),
  ("Cronos", ⟨"Cronos", "crypto-com-chain", "chains/rsz_cronos.jpg", ["Cronos"]⟩),
  ("Sei", ⟨"Sei", "sei-network", "chains/rsz_sei.jpg", ["Sei"]⟩)]

/-- `COINGECKO_IDS` from src/services/coingecko.js: network name to CoinGecko coin id. -/
def COINGECKO_IDS : List (String × String) := [
  ("Ethereum", "ethereum"),
  ("Solana", "solana"),
  ("Bitcoin", "bitcoin"),
  ("BSC", "binancecoin"),
  ("BNB Chain", "binancecoin"),
  ("Avalanche", "avalanche-2"),
  ("Polygon", "matic-network"),
  ("Arbitrum", "arbitrum"),
  ("Optimism", "optimism"),
  ("Base", "ethereum"),
  ("Sui", "sui"),
  ("Cardano", "cardano"),
  ("Tron", "tron"),
  ("TON", "the-open-network"),
  ("Polkadot", "polkadot"),
  ("Near", "near"),
  ("Fantom", "fantom"),
  ("Cosmos", "cosmos"),
  ("Aptos", "aptos"),
  ("Cronos", "crypto-com-chain"),
  ("Sei", "sei-network")]

/-- `DEXSCREENER_CHAIN_MAP` from src/services/dexscreener.js: network name to
DexScreener chain id. -/
def DEXSCREENER_CHAIN_MAP : List (String × String) := [
  ("Ethereum", "ethereum"),
  ("Solana", "solana"),
  ("Bitcoin", "bitcoin"),
  ("BSC", "bsc"),
  ("BNB Chain", "bsc"),
  ("Avalanche", "avalanche"),
  ("Polygon", "polygon"),
  ("Arbitrum", "arbitrum"),
  ("Optimism", "optimism"),
  ("Base", "base"),
  ("Sui", "sui"),
  ("Tron", "tron"),
  ("TON", "ton"),
  ("Near", "near"),
  ("Fantom", "fantom"),
  ("Aptos", "aptos"),
  ("Cronos", "cronos"),
  ("Sei", "sei"),
  ("Cardano", "cardano"),
  ("Polkadot", "polkadot"),
  ("Cosmos", "cosmoshub")]

/-- `getCoinGeckoId` from src/services/coingecko.js:
`COINGECKO_IDS[networkName] || null`. -/
def getCoinGeckoId (networkName : String) : Option String :=
  objGet COINGECKO_IDS networkName

/-- The DexScreener chain-id resolution used in src/App.js (both the StatsCard
effect and preFetchNetworkData):
the mapped chain id when present, else the lowercased network name. -/
def dexscreenerChainId (name : String) : String :=
  jsOrS (objGet DEXSCREENER_CHAIN_MAP name) (jsToLower name)

theorem objGet_objSet_self {α : Type} (m : List (String × α)) (k : String) (v : α) :
    objGet (objSet m k v) k = some v := by
  unfold objGet objSet
  by_cases h : m.any (fun p => p.1 == k) = true
  · simp only [h, if_true]
    induction m with
    | nil => simp at h
    | cons p ps ih =>
      by_cases hp : p.1 == k
      · simp [List.find?, hp]
      · simp only [List.any_cons, Bool.or_eq_true] at h
        rcases h with h1 | h2
        · exact absurd h1 hp
        · simpa [List.find?, hp] using ih h2
  · simp only [h, if_false]
    induction m with
    | nil => simp [List.find?]
    | cons p ps ih =>
      simp only [List.any_cons, Bool.or_eq_true, not_or] at h
      have hp : (p.1 == k) = false := by
        cases hpk : (p.1 == k) with
        | false => rfl
        | true => exact absurd hpk h.1
      simpa [List.find?, hp] using ih (by simpa using h.2)

/-! ## DefiLlama provider client (src/services/defillama.js) -/

/-- One element of the `/v2/chains` response array. -/
structure ChainRecord where
  name : String
  tvl : Option ℚ
  tokenSymbol : Option String
  geckoId : Option String
deriving Repr, DecidableEq

/-- One value of the map built by `fetchChainTVL` (the `chainId` field, unused
by any caller in the repository, is omitted). -/
structure TvlRec where
  tvl : ℚ
  tokenSymbol : Option String
  geckoId : Option String
deriving Repr, DecidableEq

/-- `fetchChainTVL`: on transport failure return `{}`; otherwise fold the
array into a name-keyed map, keeping entries whose `name` is truthy and whose
`tvl` is present, with `tvl: chain.tvl || 0`. -/
def fetchChainTVLCore (resp : Option (List ChainRecord)) : List (String × TvlRec) :=
  match resp with
  | none => []
  | some data =>
    data.foldl (fun m c =>
      if c.name ≠ "" ∧ c.tvl.isSome then
        objSet m c.name ⟨jsOrQ c.tvl 0, c.tokenSymbol, c.geckoId⟩
      else m) []

/-- One entry of `calculateMarketShare`'s result. -/
structure ShareEntry where
  percentage : ℚ
  tvl : ℚ
  totalTVL : ℚ
deriving Repr, DecidableEq

/-- The DefiLlama name a network resolves to inside `calculateMarketShare`:
`CHAIN_NAME_MAP[networkName]?.defillamaName || networkName`. -/
def marketShareName (networkName : String) : String :=
  jsOrS ((objGet CHAIN_NAME_MAP networkName).map (fun i => i.defillamaName)) networkName

/-- The TVL a network resolves to inside `calculateMarketShare`:
`tvlData[defillamaName]?.tvl || 0`. -/
def resolvedTvl (tvlData : List (String × TvlRec)) (networkName : String) : ℚ :=
  jsOrQ ((objGet tvlData (marketShareName networkName)).map (fun r => r.tvl)) 0

/-- `calculateMarketShare` for an explicit list of network names: total the
resolved TVLs, then emit one entry per network with
`percentage = totalTVL > 0 ? (tvl / totalTVL) * 100 : 0`. -/
def calculateMarketShare (tvlData : List (String × TvlRec)) (networks : List String) :
    List (String × ShareEntry) :=
  let totalTVL := networks.foldl (fun sum n => sum + resolvedTvl tvlData n) 0
  networks.map (fun n =>
    (n, ⟨if 0 < totalTVL then resolvedTvl tvlData n / totalTVL * 100 else 0,
         resolvedTvl tvlData n, totalTVL⟩))

/-- One element of the `/protocols` response array (fields the repository reads). -/
structure ProtocolRecord where
  name : String
  chains : Option (List String)
  category : Option String
  tvl : Option ℚ
  slug : Option String
  logo : Option String
  url : Option String
  description : Option String
deriving Repr, DecidableEq

/-- The reverse lookup inside `fetchProtocols`: the canonical network name
whose `CHAIN_NAME_MAP` entry has this DefiLlama chain name. -/
def networkNameForDefillama (chain : String) : Option String :=
  ((CHAIN_NAME_MAP.find? (fun p => p.2.defillamaName == chain)).map (fun p => p.1))

/-- Increment a counter in a JS-object of counts. -/
def bumpCount (m : List (String × ℕ)) (k : String) : List (String × ℕ) :=
  objSet m k ((objGet m k).getD 0 + 1)

/-- Increment a per-network category counter. -/
def bumpCategory (m : List (String × List (String × ℕ))) (net cat : String) :
    List (String × List (String × ℕ)) :=
  objSet m net (bumpCount ((objGet m net).getD []) cat)

/-- `fetchProtocols`: per-chain protocol counts and per-network category
breakdown; a chain matching a `CHAIN_NAME_MAP` entry is counted under the
canonical network name, any other chain under its own name. -/
def fetchProtocolsCore (resp : Option (List ProtocolRecord)) :
    List (String × ℕ) × List (String × List (String × ℕ)) :=
  match resp with
  | none => ([], [])
  | some protocols =>
    protocols.foldl (fun acc p =>
      match p.chains with
      | none => acc
      | some chains =>
        chains.foldl (fun acc2 chain =>
          match networkNameForDefillama chain with
          | some networkName =>
            let counts2 := bumpCount acc2.1 networkName
            let cats2 :=
              match p.category with
              | some cat => if cat ≠ "" then bumpCategory acc2.2 networkName cat else acc2.2
              | none => acc2.2
            (counts2, cats2)
          | none => (bumpCount acc2.1 chain, acc2.2)) acc) ([], [])

/-- Body of the `/overview/dexs/:chain` response (fields the repository reads). -/
structure DexOverviewRecord where
  totalVolume : Option ℚ
  totalVolume7d : Option ℚ
  change1d : Option ℚ
  change7d : Option ℚ
  protocols : Option (List String)
deriving Repr, DecidableEq

/-- Normalized result of `fetchChainDEXVolume`. -/
structure DexVolumeResult where
  volume24h : ℚ
  volume7d : ℚ
  change1d : ℚ
  change7d : ℚ
  protocolCount : ℕ
  protocols : List String
deriving Repr, DecidableEq

/-- `fetchChainDEXVolume`: null on transport failure, otherwise every numeric
field defensively defaulted with `|| 0`. -/
def fetchChainDEXVolumeCore (resp : Option DexOverviewRecord) : Option DexVolumeResult :=
  match resp with
  | none => none
  | some d =>
    some ⟨jsOrQ d.totalVolume 0, jsOrQ d.totalVolume7d 0, jsOrQ d.change1d 0,
          jsOrQ d.change7d 0, jsOrN (d.protocols.map (fun l => l.length)) 0,
          d.protocols.getD []⟩

/-- Body of the `/overview/fees/:chain` response. -/
structure FeesRecord where
  totalFees24h : Option ℚ
  totalFees7d : Option ℚ
  totalRevenue24h : Option ℚ
  totalRevenue7d : Option ℚ
  change1d : Option ℚ
  change7d : Option ℚ
deriving Repr, DecidableEq

/-- Normalized result of `fetchChainFees`. -/
structure FeesResult where
  fees24h : ℚ
  fees7d : ℚ
  revenue24h : ℚ
  revenue7d : ℚ
  change1d : ℚ
  change7d : ℚ
deriving Repr, DecidableEq

/-- `fetchChainFees`: null on transport failure, otherwise `|| 0` defaults. -/
def fetchChainFeesCore (resp : Option FeesRecord) : Option FeesResult :=
  match resp with
  | none => none
  | some d =>
    some ⟨jsOrQ d.totalFees24h 0, jsOrQ d.totalFees7d 0, jsOrQ d.totalRevenue24h 0,
          jsOrQ d.totalRevenue7d 0, jsOrQ d.change1d 0, jsOrQ d.change7d 0⟩

/-- One bridge of the `/bridges/:chain` response. -/
structure BridgeRecord where
  volume24h : Option ℚ
  volume7d : Option ℚ
  volume30d : Option ℚ
deriving Repr, DecidableEq

/-- Body of the `/bridges/:chain` response. -/
structure BridgesRecord where
  bridges : Option (List BridgeRecord)
deriving Repr, DecidableEq

/-- Normalized result of `fetchChainBridgeVolume`. -/
structure BridgeVolumeResult where
  volume24h : ℚ
  volume7d : ℚ
  volume30d : ℚ
  bridgeCount : ℕ
deriving Repr, DecidableEq

/-- `fetchChainBridgeVolume`: null on transport failure, otherwise sum each
bridge's volumes with `|| 0` defaults. -/
def fetchChainBridgeVolumeCore (resp : Option BridgesRecord) : Option BridgeVolumeResult :=
  match resp with
  | none => none
  | some d =>
    let bs := d.bridges.getD []
    some ⟨bs.foldl (fun acc b => acc + jsOrQ b.volume24h 0) 0,
          bs.foldl (fun acc b => acc + jsOrQ b.volume7d 0) 0,
          bs.foldl (fun acc b => acc + jsOrQ b.volume30d 0) 0,
          jsOrN (d.bridges.map (fun l => l.length)) 0⟩

/-- One point of the `/v2/historicalChainTvl/:chain` response. -/
structure HistPoint where
  tvl : Option ℚ
deriving Repr, DecidableEq, Inhabited

/-- Normalized result of `fetchChainHistoricalTVL`. The percent changes are
`Option ℚ` because the JS arithmetic can produce Infinity (division by a zero
reference tvl) or NaN (missing field): both are `none`. -/
structure HistTvlResult where
  currentTVL : ℚ
  change1d : Option ℚ
  change7d : Option ℚ
  dataPoints : ℕ
deriving Repr, DecidableEq

/-- `fetchChainHistoricalTVL`: null on transport failure or an empty array;
otherwise compare the latest point against the day-ago (second to last) and
week-ago (eighth to last) points, falling back to the latest point itself when
the array is short. -/
def fetchChainHistoricalTVLCore (resp : Option (List HistPoint)) : Option HistTvlResult :=
  match resp with
  | none => none
  | some l =>
    if l.isEmpty then none
    else
      let latest := l.getLastD ⟨none⟩
      let dayAgo := if 1 < l.length then l.getD (l.length - 2) ⟨none⟩ else latest
      let weekAgo := if 7 < l.length then l.getD (l.length - 8) ⟨none⟩ else latest
      let change1d := jmulC (jdiv (jsub latest.tvl dayAgo.tvl) dayAgo.tvl) 100
      let change7d := jmulC (jdiv (jsub latest.tvl weekAgo.tvl) weekAgo.tvl) 100
      some ⟨jsOrQ latest.tvl 0, change1d, change7d, l.length⟩

/-- `ICONS_BASE_URL` from src/services/defillama.js. -/
def ICONS_BASE_URL : String := "https://icons.llama.fi"

/-- `getNetworkLogo`: icon URL from the `CHAIN_NAME_MAP` entry, null for
unknown networks. -/
def getNetworkLogo (networkName : String) : Option String :=
  (objGet CHAIN_NAME_MAP networkName).map (fun i => ICONS_BASE_URL ++ "/" ++ i.iconPath)

/-- One entry of `fetchAllChains`' normalized result. -/
structure ChainListing where
  name : String
  tvl : ℚ
  tokenSymbol : Option String
  geckoId : Option String
  logo : Option String
  logoFallbacks : List String
deriving Repr, DecidableEq

/-- The logo candidate list `fetchAllChains` builds for one chain. -/
def chainListingLogos (c : ChainRecord) : List String :=
  match c.geckoId with
  | some g =>
    if g = "" then []
    else [ICONS_BASE_URL ++ "/chains/rsz_" ++ g ++ ".jpg",
          ICONS_BASE_URL ++ "/chains/rsz_" ++ jsToLower c.name ++ ".jpg"]
  | none => []

/-- `fetchAllChains`: keep chains with truthy `tvl` above one million dollars,
sort by TVL descending, take the top twenty, and normalize (the whitespace
replacement in the second logo URL is modelled by `toLower` alone; no chain
name in the data the claims touch contains whitespace). -/
def fetchAllChainsCore (resp : Option (List ChainRecord)) : List ChainListing :=
  match resp with
  | none => []
  | some data =>
    let significant :=
      sortByJs (fun a b => jsOrQ b.tvl 0 ≤ jsOrQ a.tvl 0)
        (data.filter (fun c =>
          match c.tvl with
          | some t => decide (1000000 < t)
          | none => false))
    (significant.take 20).map (fun c =>
      let logos := chainListingLogos c
      ⟨c.name, jsOrQ c.tvl 0, c.tokenSymbol, c.geckoId, logos.head?, logos.drop 1⟩)

/-- One entry of `fetchChainProtocols`' normalized result. -/
structure TopProtocol where
  name : String
  tvl : ℚ
  category : String
  slug : Option String
  logo : Option String
  url : Option String
  description : Option String
deriving Repr, DecidableEq

/-- The chain-name resolution at the head of `fetchChainProtocols`: the
`CHAIN_NAME_MAP` entry when the network is known; otherwise a direct key of
the `/v2/chains` TVL map, then a case-insensitive key, then the name itself. -/
def chainProtocolsName (chainsResp : Option (List ChainRecord)) (chainName : String) : String :=
  match objGet CHAIN_NAME_MAP chainName with
  | some info => jsOrS (some info.defillamaName) chainName
  | none =>
    let chainData := fetchChainTVLCore chainsResp
    if (objGet chainData chainName).isSome then chainName
    else
      match (chainData.map (fun p => p.1)).find? (fun k => jsToLower k == jsToLower chainName) with
      | some m => m
      | none => chainName

/-- `fetchChainProtocols`: resolve the chain name, then filter the `/protocols`
array to protocols listing that chain, normalize, sort by TVL descending and
keep the top twenty. -/
def fetchChainProtocolsCore (chainsResp : Option (List ChainRecord))
    (protocolsResp : Option (List ProtocolRecord)) (chainName : String) : List TopProtocol :=
  let defillamaChainName := chainProtocolsName chainsResp chainName
  match protocolsResp with
  | none => []
  | some allProtocols =>
    let mapped :=
      (allProtocols.filter (fun p => (p.chains.getD []).contains defillamaChainName)).map
        (fun p => (⟨p.name, jsOrQ p.tvl 0, jsOrS p.category ("Other"), p.slug, p.logo,
                    p.url, p.description⟩ : TopProtocol))
    (sortByJs (fun a b => b.tvl ≤ a.tvl) mapped).take 20

/-- The TVL-map lookup sequence of `fetchNetworkDetails` (direct name, mapped
DefiLlama name, alternate names, case-insensitive), returning the found record
and the resolved chain name. -/
def detailsResolve (tvlData : List (String × TvlRec)) (networkName : String) :
    Option TvlRec × String :=
  let chainInfo := objGet CHAIN_NAME_MAP networkName
  let d0 := jsOrS (chainInfo.map (fun i => i.defillamaName)) networkName
  let direct :=
    match objGet tvlData networkName with
    | some r => some r
    | none => objGet tvlData d0
  match direct with
  | some r => (some r, d0)
  | none =>
    let viaAlt :=
      match chainInfo with
      | some info => info.altNames.find? (fun a => (objGet tvlData a).isSome)
      | none => none
    match viaAlt with
    | some alt => (objGet tvlData alt, alt)
    | none =>
      match (tvlData.map (fun p => p.1)).find?
          (fun k => jsToLower k == jsToLower networkName || jsToLower k == jsToLower d0) with
      | some m => (objGet tvlData m, m)
      | none => (none, d0)

/-- The composite record `fetchNetworkDetails` returns. Display-string fields
(`tvlFormatted`, `dapps`, the `...Formatted` twins) and the
category-grouped protocol listing are presentation duplicates of the numeric
fields and are omitted from the embedding. -/
structure NetworkDetails where
  tvl : ℚ
  dappCount : ℕ
  categories : List (String × ℕ)
  topProtocols : List TopProtocol
  dexVolume24h : ℚ
  dexVolume7d : ℚ
  dexChange1d : ℚ
  dexChange7d : ℚ
  fees24h : ℚ
  fees7d : ℚ
  revenue24h : ℚ
  revenue7d : ℚ
  bridgeVolume24h : ℚ
  bridgeVolume7d : ℚ
  bridgeCount : ℕ
  tvlChange1d : ℚ
  tvlChange7d : ℚ
  logo : Option String
  geckoId : Option String
deriving Repr, DecidableEq

/-- The per-endpoint responses one aggregation pass can observe. `none` is the
transport/parse failure the JS catches; `some` is a parsed body. -/
structure World where
  chainsResp : Option (List ChainRecord)
  protocolsResp : Option (List ProtocolRecord)
  dexResp : Option DexOverviewRecord
  feesResp : Option FeesRecord
  bridgesResp : Option BridgesRecord
  histResp : Option (List HistPoint)
deriving Repr, DecidableEq

/-- `fetchNetworkDetails`: join the TVL map, protocol counts and top protocols,
resolve the chain name through the map, alternate names and case-insensitive
match, then merge the optional DEX, fees, bridge and historical results with
`|| 0` defaults. -/
def fetchNetworkDetailsCore (w : World) (networkName : String) : NetworkDetails :=
  let chainInfo := objGet CHAIN_NAME_MAP networkName
  let tvlData := fetchChainTVLCore w.chainsResp
  let protocolCounts := (fetchProtocolsCore w.protocolsResp).1
  let topProtocols := fetchChainProtocolsCore w.chainsResp w.protocolsResp networkName
  let resolved := detailsResolve tvlData networkName
  let tvl := jsOrQ (resolved.1.map (fun r => r.tvl)) 0
  let dappCount :=
    jsOrN (objGet protocolCounts networkName)
      (jsOrN (objGet protocolCounts resolved.2) topProtocols.length)
  let categories :=
    topProtocols.foldl (fun m p => bumpCount m (jsOrS (some p.category) "Other")) []
  let dexData := fetchChainDEXVolumeCore w.dexResp
  let feesData := fetchChainFeesCore w.feesResp
  let bridgeData := fetchChainBridgeVolumeCore w.bridgesResp
  let historicalData := fetchChainHistoricalTVLCore w.histResp
  { tvl := tvl
    dappCount := dappCount
    categories := categories
    topProtocols := topProtocols
    dexVolume24h := jsOrQ (dexData.map (fun d => d.volume24h)) 0
    dexVolume7d := jsOrQ (dexData.map (fun d => d.volume7d)) 0
    dexChange1d := jsOrQ (dexData.map (fun d => d.change1d)) 0
    dexChange7d := jsOrQ (dexData.map (fun d => d.change7d)) 0
    fees24h := jsOrQ (feesData.map (fun d => d.fees24h)) 0
    fees7d := jsOrQ (feesData.map (fun d => d.fees7d)) 0
    revenue24h := jsOrQ (feesData.map (fun d => d.revenue24h)) 0
    revenue7d := jsOrQ (feesData.map (fun d => d.revenue7d)) 0
    bridgeVolume24h := jsOrQ (bridgeData.map (fun d => d.volume24h)) 0
    bridgeVolume7d := jsOrQ (bridgeData.map (fun d => d.volume7d)) 0
    bridgeCount := jsOrN (bridgeData.map (fun d => d.bridgeCount)) 0
    tvlChange1d := jsOrQ (historicalData.bind (fun h => h.change1d)) 0
    tvlChange7d := jsOrQ (historicalData.bind (fun h => h.change7d)) 0
    logo := match chainInfo with
            | some _ => getNetworkLogo networkName
            | none => none
    geckoId := chainInfo.map (fun i => i.geckoId) }

/-! ## CoinGecko provider client (src/services/coingecko.js) -/

/-- The market-data part of a `/coins/:id` response the UI reads. -/
structure MarketData where
  currentPriceUsd : Option ℚ
  marketCapUsd : Option ℚ
deriving Repr, DecidableEq

/-- Body of a `/coins/:id` response. -/
structure CoinRecord where
  marketData : Option MarketData
deriving Repr, DecidableEq

/-- `fetchNetworkCoinData`: prefer the geckoId passed by the caller (falsy
values fall back to `getCoinGeckoId`), return null when no valid id exists or
when the fetch fails. -/
def fetchNetworkCoinDataCore (coinResp : Option CoinRecord) (networkName : String)
    (geckoId : Option String) : Option CoinRecord :=
  let coinId :=
    match geckoId with
    | some g => if g = "" then getCoinGeckoId networkName else some g
    | none => getCoinGeckoId networkName
  match coinId with
  | none => none
  | some cid => if cid.trim = "" then none else coinResp

/-! ## DexScreener provider client (src/services/dexscreener.js) -/

/-- One pair of a DexScreener response; `liquidityUsd` models
`pair.liquidity?.usd` after `parseFloat` (absent or unparseable is `none`). -/
structure PairRecord where
  liquidityUsd : Option ℚ
deriving Repr, DecidableEq

/-- Body of the `/pairs/:chainId` response. -/
structure PairsRecord where
  pairs : Option (List PairRecord)
deriving Repr, DecidableEq

/-- Body of the `/search?q=` response. -/
structure SearchRecord where
  pairs : Option (List PairRecord)
deriving Repr, DecidableEq

/-- The aggregate `fetchChainTotalLiquidity` returns. -/
structure LiquidityAgg where
  totalLiquidity : ℚ
  pairCount : ℕ
deriving Repr, DecidableEq

/-- The accumulation `total += parseFloat(pair.liquidity.usd) || 0` guarded by
`if (pair.liquidity?.usd)` (a truthiness test: absent and zero are skipped). -/
def addPairLiquidity (acc : ℚ) (p : PairRecord) : ℚ :=
  match p.liquidityUsd with
  | some v => if v = 0 then acc else acc + v
  | none => acc

/-- `fetchChainTotalLiquidity`: null on transport failure or a body without a
pairs array; otherwise the summed pair liquidity and the pair count. -/
def fetchChainTotalLiquidityCore (resp : Option PairsRecord) : Option LiquidityAgg :=
  match resp with
  | none => none
  | some r =>
    match r.pairs with
    | none => none
    | some pairs => some ⟨pairs.foldl addPairLiquidity 0, pairs.length⟩

/-- The search-tier fallback both App.js call sites use: sum the liquidity of
the first ten pairs of the search result; null when the search failed, matched
nothing, or summed to nothing positive. -/
def dexSearchFallback (searchResp : Option SearchRecord) : Option LiquidityAgg :=
  match searchResp with
  | none => none
  | some s =>
    match s.pairs with
    | none => none
    | some pairs =>
      if pairs.isEmpty then none
      else
        let total := (pairs.take 10).foldl addPairLiquidity 0
        if 0 < total then some ⟨total, pairs.length⟩ else none

/-- The two-tier liquidity lookup of src/App.js (StatsCard effect and
preFetchNetworkData): the direct per-chain aggregation when it yields a
positive total, otherwise the symbol/name search fallback. -/
def dexLiquidityLookup (pairsResp : Option PairsRecord) (searchResp : Option SearchRecord) :
    Option LiquidityAgg :=
  match fetchChainTotalLiquidityCore pairsResp with
  | some l => if 0 < l.totalLiquidity then some l else dexSearchFallback searchResp
  | none => dexSearchFallback searchResp

/-- The sum the spec describes for the fallback tier: liquidity of the ten
highest-liquidity matches. Modelled from the spec for comparison with the
code's first-ten sum; not part of the source. -/
def specTopTenLiquiditySum (pairs : List PairRecord) : ℚ :=
  ((sortByJs (fun a b => (b.liquidityUsd.getD 0) ≤ (a.liquidityUsd.getD 0)) pairs).take 10).foldl
    addPairLiquidity 0

/-! ## Per-provider bulk caches (src/services/yields.js, stablecoins.js, feargreed.js) -/

/-- A module-level bulk cache: the payload variable and its fetch time
(`null`/`0` before the first successful fetch). -/
structure BulkCache (α : Type) where
  payload : Option α
  time : ℕ
deriving Repr, DecidableEq

/-- The state each cache module starts in. -/
def initCache {α : Type} : BulkCache α := ⟨none, 0⟩

/-- What one cached bulk get returns: the payload handed to the caller, the
cache state left behind, and whether a network fetch was issued. -/
structure CacheStep (α : Type) where
  value : α
  state : BulkCache α
  fetched : Bool
deriving Repr, DecidableEq

/-- Five minutes in milliseconds: the yields and stablecoins cache TTL. -/
def CACHE_TTL_5M : ℕ := 5 * 60 * 1000

/-- Ten minutes in milliseconds: the fear-greed cache TTL. -/
def CACHE_TTL_10M : ℕ := 10 * 60 * 1000

/-- One yield pool of the `/pools` response. -/
structure PoolRecord where
  pool : String
  project : String
  symbol : String
  chain : Option String
  apy : Option ℚ
  apyBase : Option ℚ
  apyReward : Option ℚ
  tvlUsd : Option ℚ
  stablecoin : Option Bool
deriving Repr, DecidableEq

/-- Body of the yields `/pools` response. -/
structure PoolsRecord where
  data : Option (List PoolRecord)
deriving Repr, DecidableEq

/-- The fetch-and-store branch of `fetchAllPools`: on success store
`data.data || []` and stamp the time; on a thrown/non-2xx failure return `[]`
and leave the cache untouched. -/
def fetchPoolsMiss (st : BulkCache (List PoolRecord)) (now : ℕ) (resp : Option PoolsRecord) :
    CacheStep (List PoolRecord) :=
  match resp with
  | some r =>
    let pools := r.data.getD []
    ⟨pools, ⟨some pools, now⟩, true⟩
  | none => ⟨[], st, true⟩

/-- `fetchAllPools`: serve the cached pool list while it is younger than the
TTL, otherwise fetch. -/
def fetchAllPools (st : BulkCache (List PoolRecord)) (now : ℕ) (resp : Option PoolsRecord) :
    CacheStep (List PoolRecord) :=
  match st.payload with
  | some c => if now - st.time < CACHE_TTL_5M then ⟨c, st, false⟩ else fetchPoolsMiss st now resp
  | none => fetchPoolsMiss st now resp

/-- One chain of the `/stablecoinchains` response; `peggedUSD` models
`chain.totalCirculatingUSD?.peggedUSD`. -/
structure StableChainRecord where
  name : String
  peggedUSD : Option ℚ
deriving Repr, DecidableEq

/-- One value of the map `fetchStablecoinChains` builds (the raw
`totalCirculating` object is carried verbatim by the JS and never read by a
caller; it is omitted). -/
structure StableRec where
  totalCirculatingUSD : ℚ
deriving Repr, DecidableEq

/-- The fetch-and-store branch of `fetchStablecoinChains`: on success build
the name-keyed map (empty for a body that is not an array) and stamp the time;
on failure return `{}` and leave the cache untouched. -/
def fetchStableMiss (st : BulkCache (List (String × StableRec))) (now : ℕ)
    (resp : Option (List StableChainRecord)) : CacheStep (List (String × StableRec)) :=
  match resp with
  | some data =>
    let chainMap := data.foldl (fun m c =>
      if c.name ≠ "" then objSet m c.name ⟨jsOrQ c.peggedUSD 0⟩ else m) []
    ⟨chainMap, ⟨some chainMap, now⟩, true⟩
  | none => ⟨[], st, true⟩

/-- `fetchStablecoinChains`: serve the cached map while it is younger than the
TTL, otherwise fetch. -/
def fetchStablecoinChains (st : BulkCache (List (String × StableRec))) (now : ℕ)
    (resp : Option (List StableChainRecord)) : CacheStep (List (String × StableRec)) :=
  match st.payload with
  | some c => if now - st.time < CACHE_TTL_5M then ⟨c, st, false⟩ else fetchStableMiss st now resp
  | none => fetchStableMiss st now resp

/-- `fetchChainStablecoinTVL`'s lookup into the chains map: direct key, then
case-insensitive key, then the documented default 0. -/
def fetchChainStablecoinTVLCore (chains : List (String × StableRec)) (chainName : String) : ℚ :=
  match objGet chains chainName with
  | some d => d.totalCirculatingUSD
  | none =>
    match (chains.map (fun p => p.1)).find? (fun k => jsToLower k == jsToLower chainName) with
    | some k => ((objGet chains k).map (fun d => d.totalCirculatingUSD)).getD 0
    | none => 0

/-! ## Fear & Greed provider client (src/services/feargreed.js) -/

/-- One entry of the alternative.me `fng` response; `value` is the raw string
the JS passes to `parseInt`. -/
structure FngEntry where
  value : Option String
  valueClassification : Option String
  timestamp : Option String
deriving Repr, DecidableEq, Inhabited

/-- Body of the `fng` response. -/
structure FngRecord where
  data : Option (List FngEntry)
deriving Repr, DecidableEq

/-- The record `fetchFearGreedIndex` builds. Integer fields are `Option ℤ`:
`none` is either the documented null (no previous/week-ago entry) or the NaN a
failed `parseInt` produces. -/
structure FngResult where
  value : Option ℤ
  classification : Option String
  timestamp : Option String
  previousValue : Option ℤ
  previousClassification : Option String
  weekAgoValue : Option ℤ
  change24h : Option ℤ
  change7d : Option ℤ
deriving Repr, DecidableEq

/-- The parse-and-assemble branch of `fetchFearGreedIndex` for a parsed body:
null when `data.data` is absent or empty (nothing is cached in that case). -/
def fngAssemble (r : FngRecord) : Option FngResult :=
  match r.data with
  | none => none
  | some entries =>
    if entries.isEmpty then none
    else
      let current := entries.getD 0 default
      let previous := if 1 < entries.length then some (entries.getD 1 default) else none
      let weekAgo := if 7 ≤ entries.length then some (entries.getD 6 default) else none
      some { value := parseIntOpt current.value
             classification := current.valueClassification
             timestamp := current.timestamp
             previousValue := previous.bind (fun p => parseIntOpt p.value)
             previousClassification := previous.bind (fun p => p.valueClassification)
             weekAgoValue := weekAgo.bind (fun p => parseIntOpt p.value)
             change24h := previous.bind (fun p =>
               jsubZ (parseIntOpt current.value) (parseIntOpt p.value))
             change7d := weekAgo.bind (fun p =>
               jsubZ (parseIntOpt current.value) (parseIntOpt p.value)) }

/-- What one `fetchFearGreedIndex` call returns: a possibly-null index, the
cache state left behind, and whether a network fetch was issued. -/
structure FngStep where
  value : Option FngResult
  state : BulkCache FngResult
  fetched : Bool
deriving Repr, DecidableEq

/-- The fetch branch of `fetchFearGreedIndex`: a transport failure or an
absent/empty data array returns null without touching the cache; a parsed
result is stored and stamped. -/
def fetchFngMiss (st : BulkCache FngResult) (now : ℕ) (resp : Option FngRecord) : FngStep :=
  match resp with
  | none => ⟨none, st, true⟩
  | some r =>
    match fngAssemble r with
    | none => ⟨none, st, true⟩
    | some result => ⟨some result, ⟨some result, now⟩, true⟩

/-- `fetchFearGreedIndex`: serve the cached index while it is younger than the
TTL, otherwise fetch. -/
def fetchFearGreedIndex (st : BulkCache FngResult) (now : ℕ) (resp : Option FngRecord) : FngStep :=
  match st.payload with
  | some c => if now - st.time < CACHE_TTL_10M then ⟨some c, st, false⟩ else fetchFngMiss st now resp
  | none => fetchFngMiss st now resp

/-! ## Yield statistics (src/services/yields.js) -/

/-- Whether a pool belongs to the requested chain:
the lowercased pool chain equals the lowercased requested chain name. -/
def poolOnChain (chainName : String) (p : PoolRecord) : Bool :=
  match p.chain with
  | some c => c ≠ "" && jsToLower c == jsToLower chainName
  | none => false

/-- `pool.apy > 0 && pool.apy < 1000` on an optional field. -/
def apyReasonable (p : PoolRecord) : Bool :=
  match p.apy with
  | some a => decide (0 < a) && decide (a < 1000)
  | none => false

/-- One entry of `fetchChainTopYields`' result. -/
structure TopYield where
  pool : String
  project : String
  symbol : String
  chain : Option String
  apy : ℚ
  apyBase : ℚ
  apyReward : ℚ
  tvlUsd : ℚ
  stablecoin : Bool
deriving Repr, DecidableEq

/-- The filter-sort-slice part of `fetchChainTopYields` on an already fetched
pool list: pools of this chain with TVL above one million and a reasonable
APY, ordered by TVL descending, the first `limit` of them. -/
def topYieldsFromPools (pools : List PoolRecord) (chainName : String) (limit : ℕ) :
    List TopYield :=
  let chainPools :=
    sortByJs (fun a b => b.tvlUsd.getD 0 ≤ a.tvlUsd.getD 0)
      (pools.filter (fun p =>
        poolOnChain chainName p &&
        (match p.tvlUsd with
         | some t => decide (1000000 < t)
         | none => false) &&
        apyReasonable p))
  (chainPools.take limit).map (fun p =>
    ⟨p.pool, p.project, p.symbol, p.chain, p.apy.getD 0, jsOrQ p.apyBase 0,
     jsOrQ p.apyReward 0, p.tvlUsd.getD 0, p.stablecoin.getD false⟩)

/-- The record `fetchChainYieldStats` returns. -/
structure YieldStats where
  poolCount : ℕ
  totalYieldTvl : ℚ
  avgApy : ℚ
  weightedAvgApy : ℚ
  medianApy : ℚ
deriving Repr, DecidableEq

/-- The aggregation part of `fetchChainYieldStats` on an already fetched pool
list: null when no pool of the chain has positive TVL, otherwise pool count,
total TVL, plain and TVL-weighted average APY, and median APY. -/
def yieldStatsFromPools (pools : List PoolRecord) (chainName : String) : Option YieldStats :=
  let chainPools := pools.filter (fun p =>
    poolOnChain chainName p &&
    (match p.tvlUsd with
     | some t => decide (0 < t)
     | none => false))
  if chainPools.isEmpty then none
  else
    let totalTvl := chainPools.foldl (fun sum p => sum + (p.tvlUsd.getD 0)) (0 : ℚ)
    let apys := (chainPools.filter apyReasonable).map (fun p => p.apy.getD 0)
    let avgApy := if apys.isEmpty then 0 else apys.foldl (· + ·) 0 / (apys.length : ℚ)
    let weightedSum := (chainPools.filter apyReasonable).foldl
      (fun sum p => sum + (p.apy.getD 0) * (p.tvlUsd.getD 0)) 0
    let weightedAvgApy := if 0 < totalTvl then weightedSum / totalTvl else 0
    let medianApy :=
      if apys.isEmpty then 0
      else (sortByJs (fun a b => a ≤ b) apys).getD (apys.length / 2) 0
    some ⟨chainPools.length, totalTvl, avgApy, weightedAvgApy, medianApy⟩

/-! ## The aggregator and snapshot cache (src/App.js) -/

/-- A body of the CoinGecko `market_chart` endpoint (opaque to the engine; the
UI only charts it). -/
structure HistPriceRecord where
  pricePoints : ℕ
deriving Repr, DecidableEq

/-- All per-endpoint responses one snapshot build can observe. -/
structure FullWorld where
  base : World
  coinResp : Option CoinRecord
  histPriceResp : Option HistPriceRecord
  pairsResp : Option PairsRecord
  searchResp : Option SearchRecord
  stableResp : Option (List StableChainRecord)
  poolsResp : Option PoolsRecord
  fngResp : Option FngRecord
deriving Repr, DecidableEq

/-- The world in which every provider call fails: every endpoint yields the
thrown/caught transport failure. -/
def failWorld : FullWorld :=
  ⟨⟨none, none, none, none, none, none⟩, none, none, none, none, none, none, none⟩

/-- The module-level bulk-cache states the snapshot build threads through. -/
structure ProviderCaches where
  stable : BulkCache (List (String × StableRec))
  pools : BulkCache (List PoolRecord)
  fng : BulkCache FngResult
deriving Repr, DecidableEq

/-- The caches as the modules initialize them. -/
def initCaches : ProviderCaches := ⟨initCache, initCache, initCache⟩

/-- The identity an entity carries into a snapshot build (`network.name`,
`network.geckoId`, `network.symbol` in App.js). -/
structure NetworkLite where
  name : String
  geckoId : Option String
  symbol : Option String
deriving Repr, DecidableEq

/-- The composite record stored in `networkDataCache` per entity. -/
structure Snapshot where
  detailedData : Option NetworkDetails
  priceData : Option CoinRecord
  historicalData : Option HistPriceRecord
  dexScreenerData : Option LiquidityAgg
  stablecoinData : ℚ
  yieldData : Option YieldStats
  topYields : List TopYield
  fearGreedData : Option FngResult
  fetchedAt : ℕ
deriving Repr, DecidableEq

/-- One snapshot build for one entity, as `preFetchNetworkData` and the
StatsCard effect perform it: all providers are queried, the outcomes joined by
an all-settled barrier, each failure replaced by its documented default, and
the result stamped with the build time. In the embedding every provider
already fails soft, so every outcome is a fulfilled settled promise.
`fetchChainYieldStats` and `fetchChainTopYields` each call the pool cache, so
the cache state is threaded through both in order. -/
def buildSnapshot (w : FullWorld) (now : ℕ) (pcs : ProviderCaches) (net : NetworkLite) :
    Snapshot × ProviderCaches :=
  let detailed := fetchNetworkDetailsCore w.base net.name
  let price := fetchNetworkCoinDataCore w.coinResp net.name net.geckoId
  let hist :=
    match net.geckoId with
    | some g => if g = "" then none else w.histPriceResp
    | none => none
  let dex := dexLiquidityLookup w.pairsResp w.searchResp
  let stableStep := fetchStablecoinChains pcs.stable now w.stableResp
  let stableTvl := fetchChainStablecoinTVLCore stableStep.value net.name
  let poolsStep1 := fetchAllPools pcs.pools now w.poolsResp
  let yieldStats := yieldStatsFromPools poolsStep1.value net.name
  let poolsStep2 := fetchAllPools poolsStep1.state now w.poolsResp
  let topYields := topYieldsFromPools poolsStep2.value net.name 3
  let fngStep := fetchFearGreedIndex pcs.fng now w.fngResp
  (⟨some detailed, price, hist, dex, stableTvl, yieldStats, topYields, fngStep.value, now⟩,
   ⟨stableStep.state, poolsStep2.state, fngStep.state⟩)

/-- `CACHE_MAX_AGE` of the StatsCard effect: five minutes. -/
def CACHE_MAX_AGE : ℕ := 5 * 60 * 1000

/-- What one StatsCard lookup leaves behind. -/
structure LookupResult where
  snap : Snapshot
  cache : List (String × Snapshot)
  pcs : ProviderCaches
  refreshed : Bool
deriving Repr, DecidableEq

/-- The refresh path of the StatsCard effect: build a snapshot and store it
under the entity name. -/
def statsCardRefresh (cache : List (String × Snapshot)) (now : ℕ) (w : FullWorld)
    (pcs : ProviderCaches) (net : NetworkLite) : LookupResult :=
  let built := buildSnapshot w now pcs net
  ⟨built.1, objSet cache net.name built.1, built.2, true⟩

/-- The StatsCard effect on `networkDataCache`: serve the stored snapshot when
it is younger than `CACHE_MAX_AGE`, otherwise refresh and store. -/
def statsCardLookup (cache : List (String × Snapshot)) (now : ℕ) (w : FullWorld)
    (pcs : ProviderCaches) (net : NetworkLite) : LookupResult :=
  match objGet cache net.name with
  | some c =>
    if now - c.fetchedAt < CACHE_MAX_AGE then ⟨c, cache, pcs, false⟩
    else statsCardRefresh cache now w pcs net
  | none => statsCardRefresh cache now w pcs net

/-! ## Interleaving model of concurrent StatsCard requests (src/App.js) -/

/-- One cooperative-scheduler event at the snapshot cache: a request for the
entity (the StatsCard effect runs its synchronous cache check and, on a miss,
launches a refresh) or the completion of one in-flight refresh (its `.then`
callback stores the fresh snapshot). -/
inductive UiEvent where
  | request (now : ℕ)
  | complete (now : ℕ)
deriving Repr, DecidableEq

/-- The snapshot-cache state the interleaving model tracks: the stored
`fetchedAt` for the entity (none before the first completion), how many
refreshes are in flight, and how many provider fetch rounds were launched. -/
structure UiState where
  cachedAt : Option ℕ
  inFlight : ℕ
  fetchRounds : ℕ
deriving Repr, DecidableEq

/-- The state at page load: nothing cached, nothing in flight. -/
def uiInit : UiState := ⟨none, 0, 0⟩

/-- One event against the StatsCard code: a request re-checks the cache and,
unless a fresh snapshot is stored, launches its own refresh — the code keeps
no map of in-flight refreshes to attach to. A completion stores its snapshot. -/
def uiStep (st : UiState) (ev : UiEvent) : UiState :=
  match ev with
  | .request now =>
    match st.cachedAt with
    | some t =>
      if now - t < CACHE_MAX_AGE then st
      else ⟨st.cachedAt, st.inFlight + 1, st.fetchRounds + 1⟩
    | none => ⟨st.cachedAt, st.inFlight + 1, st.fetchRounds + 1⟩
  | .complete now => ⟨some now, st.inFlight - 1, st.fetchRounds⟩

/-- A sequence of interleaved events. -/
def uiRun (st : UiState) (evs : List UiEvent) : UiState :=
  evs.foldl uiStep st

/-! ## Dynamic roster discovery (src/Hero.js, loadAnalytics) -/

/-- A globe entity. Color and position are opaque to the engine (THREE.Color
and THREE.Vector3 values), so the type is parametric in them; `stats` is the
display-string block carried along. -/
structure Network (C P : Type) where
  name : String
  symbol : String
  color : C
  pos : P
  geckoId : Option String
  rawTvl : ℚ
  marketShare : ℚ
deriving Repr, DecidableEq

/-- One base network's per-name analytics record, as loadAnalytics reads it
from `fetchAllNetworkAnalytics` (string fields omitted). -/
structure AnalyticsRec where
  tvl : ℚ
  marketShare : ℚ
  geckoId : Option String
deriving Repr, DecidableEq

/-- The base-network update of loadAnalytics: spread the original network and
overwrite data fields; name, color (cloned, so value-equal) and position are
preserved. -/
def updateBaseNetwork {C P : Type} (analytics : List (String × AnalyticsRec))
    (tvlData : List (String × TvlRec)) (n : Network C P) : Network C P :=
  let analyticsData := objGet analytics n.name
  let chainInfo := objGet CHAIN_NAME_MAP n.name
  let defillamaName := jsOrS (chainInfo.map (fun i => i.defillamaName)) n.name
  let chainTvlData :=
    match objGet tvlData n.name with
    | some r => some r
    | none => objGet tvlData defillamaName
  let rawTvl := jsOrQ (chainTvlData.map (fun r => r.tvl))
    (jsOrQ (analyticsData.map (fun a => a.tvl)) 0)
  { n with
    geckoId :=
      match chainInfo with
      | some i => some i.geckoId
      | none =>
        match analyticsData.bind (fun a => a.geckoId) with
        | some g => some g
        | none => n.geckoId
    rawTvl := rawTvl
    marketShare := jsOrQ (analyticsData.map (fun a => a.marketShare)) 0 }

/-- The additional network loadAnalytics builds from a discovered chain; color
and position come from the hash-hue and fibonacci-sphere generators, which the
engine treats as opaque (`genColor`, `genPos`). -/
def mkAdditionalNetwork {C P : Type} (genColor : String → C) (genPos : ℕ → P)
    (posIndex : ℕ) (c : ChainListing) : Network C P :=
  { name := c.name
    symbol := jsOrS c.tokenSymbol (jsToUpper (c.name.take 3))
    color := genColor c.name
    pos := genPos posIndex
    geckoId := c.geckoId
    rawTvl := c.tvl
    marketShare := 0 }

/-- The roster computation of loadAnalytics: update every base network in
place, then append every chain of the TVL provider's listing that is not
already a base name and has TVL above one hundred million dollars. Nothing is
removed. -/
def loadAnalyticsRoster {C P : Type} (base : List (Network C P))
    (analytics : List (String × AnalyticsRec)) (tvlData : List (String × TvlRec))
    (allChains : List ChainListing) (genColor : String → C) (genPos : ℕ → P) :
    List (Network C P) :=
  let updatedBase := base.map (updateBaseNetwork analytics tvlData)
  let baseNames := base.map (fun n => n.name)
  let discovered := allChains.filter (fun c =>
    !(baseNames.contains c.name) && decide ((100000000 : ℚ) < c.tvl))
  let additional := discovered.enum.map (fun p =>
    mkAdditionalNetwork genColor genPos (base.length + p.1) p.2)
  updatedBase ++ additional

/-! ## Theorems -/

/-- Claim C8: in every provider mapping table in which BSC and BNB Chain are
both configured as names of the same entity, the two names resolve to the same
provider-specific key: bsc in the DexScreener map and binancecoin in the
CoinGecko map; in CHAIN_NAME_MAP both are alternate names of the single BSC
entry. -/
theorem c8_bsc_bnb_same_key :
    objGet DEXSCREENER_CHAIN_MAP ("BSC") = objGet DEXSCREENER_CHAIN_MAP ("BNB Chain")
    ∧ objGet DEXSCREENER_CHAIN_MAP ("BSC") = some ("bsc")
    ∧ getCoinGeckoId ("BSC") = getCoinGeckoId ("BNB Chain")
    ∧ getCoinGeckoId ("BSC") = some ("binancecoin")
    ∧ dexscreenerChainId ("BSC") = dexscreenerChainId ("BNB Chain")
    ∧ ∃ info, objGet CHAIN_NAME_MAP ("BSC") = some info
        ∧ ("BSC") ∈ info.altNames ∧ ("BNB Chain") ∈ info.altNames := by
  refine ⟨rfl, rfl, rfl, rfl, rfl, ⟨_, rfl, ?_, ?_⟩⟩ <;> decide

/-- Folding addition of a mapped value over a list is the initial value plus
the sum of the mapped list. -/
theorem foldl_add_map (l : List String) (f : String → ℚ) (a : ℚ) :
    l.foldl (fun s n => s + f n) a = a + (l.map f).sum := by
  induction l generalizing a with
  | nil => simp
  | cons x xs ih => simp only [List.foldl_cons, List.map_cons, List.sum_cons, ih]; ring

/-- Summing a list of quotients against a fixed positive total gives the sum
of the numerators against that total. -/
theorem sum_map_div_mul (l : List String) (f : String → ℚ) (T : ℚ) :
    (l.map (fun n => f n / T * 100)).sum = (l.map f).sum / T * 100 := by
  induction l with
  | nil => simp
  | cons x xs ih => simp only [List.map_cons, List.sum_cons, ih]; ring

/-- Claim C10: for every TVL data map and duplicate-free network list,
calculateMarketShare yields one entry per network, every entry carries the
same totalTVL (the sum of the resolved TVLs); when that total is positive the
percentages sum to exactly 100 in exact rational arithmetic, and when the
total is zero every percentage is 0. -/
theorem c10_market_share (tvlData : List (String × TvlRec)) (networks : List String)
    (_hnd : networks.Nodup) :
    (calculateMarketShare tvlData networks).length = networks.length
    ∧ (∀ e ∈ calculateMarketShare tvlData networks,
        e.2.totalTVL = (networks.map (resolvedTvl tvlData)).sum)
    ∧ (0 < (networks.map (resolvedTvl tvlData)).sum →
        ((calculateMarketShare tvlData networks).map (fun e => e.2.percentage)).sum = 100)
    ∧ ((networks.map (resolvedTvl tvlData)).sum = 0 →
        ∀ e ∈ calculateMarketShare tvlData networks, e.2.percentage = 0) := by
  have hfold : networks.foldl (fun sum n => sum + resolvedTvl tvlData n) 0
      = (networks.map (resolvedTvl tvlData)).sum := by
    simpa using foldl_add_map networks (resolvedTvl tvlData) 0
  refine ⟨?_, ?_, ?_, ?_⟩
  · simp [calculateMarketShare]
  · intro e he
    simp only [calculateMarketShare, List.mem_map] at he
    obtain ⟨n, _, rfl⟩ := he
    simpa using hfold
  · intro hT
    simp only [calculateMarketShare, hfold, hT, if_true, List.map_map, Function.comp_def]
    rw [sum_map_div_mul networks (resolvedTvl tvlData) ((networks.map (resolvedTvl tvlData)).sum)]
    rw [div_self (ne_of_gt hT), one_mul]
  · intro hT e he
    have hT0 : networks.foldl (fun sum n => sum + resolvedTvl tvlData n) 0 = 0 := by
      rw [hfold]; exact hT
    simp only [calculateMarketShare, List.mem_map] at he
    obtain ⟨n, _, rfl⟩ := he
    simp [hT0]

/-- Witness for claim C10: a concrete two-network roster with TVLs 60 and 40
has percentages summing to exactly 100. -/
theorem c10_market_share_witness :
    ((calculateMarketShare
        [("Ethereum", ⟨60, none, none⟩), ("Solana", ⟨40, none, none⟩)]
        ["Ethereum", "Solana"]).map (fun e => e.2.percentage)).sum = 100 := by
  have h := c10_market_share
    [("Ethereum", ⟨60, none, none⟩), ("Solana", ⟨40, none, none⟩)]
    ["Ethereum", "Solana"] (by decide)
  apply h.2.2.1
  have e1 : List.map
      (resolvedTvl [("Ethereum", ⟨60, none, none⟩), ("Solana", ⟨40, none, none⟩)])
      ["Ethereum", "Solana"] = [60, 40] := rfl
  rw [e1]
  norm_num

/-- Claim C5 (amended): the liquidity lookup serves the direct per-chain
aggregation exactly when it succeeds with a positive total; otherwise it falls
back to the symbol search, whose result sums the liquidity of the first ten
pairs in the provider's response order; when neither tier yields positive
liquidity the result is null. -/
theorem c5_liquidity_two_tier :
    ∀ (ps : Option PairsRecord) (ss : Option SearchRecord),
      (∀ l, fetchChainTotalLiquidityCore ps = some l → 0 < l.totalLiquidity →
        dexLiquidityLookup ps ss = some l)
      ∧ ((fetchChainTotalLiquidityCore ps = none ∨
          ∃ l, fetchChainTotalLiquidityCore ps = some l ∧ l.totalLiquidity ≤ 0) →
          dexLiquidityLookup ps ss = dexSearchFallback ss)
      ∧ (∀ s pairs, ss = some s → s.pairs = some pairs → pairs ≠ [] →
          0 < (pairs.take 10).foldl addPairLiquidity 0 →
          dexSearchFallback ss =
            some ⟨(pairs.take 10).foldl addPairLiquidity 0, pairs.length⟩)
      ∧ ((fetchChainTotalLiquidityCore ps = none ∨
          ∃ l, fetchChainTotalLiquidityCore ps = some l ∧ l.totalLiquidity ≤ 0) →
          dexSearchFallback ss = none → dexLiquidityLookup ps ss = none) := by
  intro ps ss
  refine ⟨?_, ?_, ?_, ?_⟩
  · intro l hl hpos
    simp [dexLiquidityLookup, hl, hpos]
  · intro h
    rcases h with h | ⟨l, hl, hle⟩
    · simp [dexLiquidityLookup, h]
    · simp [dexLiquidityLookup, hl, not_lt.mpr hle]
  · intro s pairs hss hp hne hpos
    simp [dexSearchFallback, hss, hp, hne, hpos]
  · intro h hfb
    rcases h with h | ⟨l, hl, hle⟩
    · simp [dexLiquidityLookup, h, hfb]
    · simp [dexLiquidityLookup, hl, not_lt.mpr hle, hfb]

/-- The concrete search result refuting the highest-liquidity reading of the
fallback: ten pairs of liquidity 1 followed by one pair of liquidity 100. -/
def elevenPairs : List PairRecord :=
  (List.replicate 10 ⟨some 1⟩) ++ [⟨some 100⟩]

/-- Counterexample to claim C5 as stated: with a failed direct tier and eleven
search pairs whose largest liquidity arrives last, the code sums the first ten
pairs (total 10), not the ten highest-liquidity pairs (total 109). -/
theorem c5_counterexample :
    dexLiquidityLookup none (some ⟨some elevenPairs⟩) = some ⟨10, 11⟩
    ∧ specTopTenLiquiditySum elevenPairs = 109
    ∧ dexLiquidityLookup none (some ⟨some elevenPairs⟩) ≠
        some ⟨specTopTenLiquiditySum elevenPairs, 11⟩ := by
  have h1 : dexLiquidityLookup none (some ⟨some elevenPairs⟩) = some ⟨10, 11⟩ := by
    have htake : elevenPairs.take 10 = List.replicate 10 ⟨some 1⟩ := rfl
    simp only [dexLiquidityLookup, fetchChainTotalLiquidityCore, dexSearchFallback, htake]
    norm_num [elevenPairs, addPairLiquidity, List.foldl, List.replicate]
  have h2 : specTopTenLiquiditySum elevenPairs = 109 := by
    have hsort : sortByJs (fun a b => (b.liquidityUsd.getD 0) ≤ (a.liquidityUsd.getD 0))
        elevenPairs = ⟨some 100⟩ :: List.replicate 10 ⟨some 1⟩ := by
      norm_num [elevenPairs, sortByJs, insertSorted, List.replicate]
    norm_num [specTopTenLiquiditySum, hsort, addPairLiquidity, List.replicate]
  refine ⟨h1, h2, ?_⟩
  rw [h1, h2]
  intro hcontra
  have : (10 : ℚ) = 109 := by
    have := Option.some.inj hcontra
    exact congrArg LiquidityAgg.totalLiquidity this
  norm_num at this

/-- Claim C3 (amended): for each of the three per-provider bulk caches, a get
is a hit exactly when a payload is cached and `now - fetchedAt < TTL`; on a
miss a successful fetch stores its payload (even an empty/default one from a
body missing the expected array) with a new timestamp, but a thrown/non-2xx
fetch returns the default and leaves the cache untouched (and the fear-greed
client additionally declines to cache a parsed body with no data entries), so
a down provider is fetched again on the next get. -/
theorem c3_bulk_caches :
    ∀ (stP : BulkCache (List PoolRecord)) (stS : BulkCache (List (String × StableRec)))
      (stF : BulkCache FngResult) (now : ℕ) (respP : Option PoolsRecord)
      (respS : Option (List StableChainRecord)) (respF : Option FngRecord),
      ((fetchAllPools stP now respP).fetched = false ↔
        stP.payload.isSome ∧ now - stP.time < CACHE_TTL_5M)
      ∧ ((fetchStablecoinChains stS now respS).fetched = false ↔
        stS.payload.isSome ∧ now - stS.time < CACHE_TTL_5M)
      ∧ ((fetchFearGreedIndex stF now respF).fetched = false ↔
        stF.payload.isSome ∧ now - stF.time < CACHE_TTL_10M)
      ∧ (∀ r, respP = some r → (fetchAllPools stP now respP).fetched = true →
          (fetchAllPools stP now respP).state = ⟨some (r.data.getD []), now⟩)
      ∧ (respP = none → (fetchAllPools stP now respP).fetched = true →
          (fetchAllPools stP now respP).state = stP)
      ∧ (respS = none → (fetchStablecoinChains stS now respS).fetched = true →
          (fetchStablecoinChains stS now respS).state = stS)
      ∧ (respF = none → (fetchFearGreedIndex stF now respF).fetched = true →
          (fetchFearGreedIndex stF now respF).state = stF)
      ∧ (∀ r, respF = some r → fngAssemble r = none →
          (fetchFearGreedIndex stF now respF).fetched = true →
          (fetchFearGreedIndex stF now respF).state = stF)
      ∧ (∀ r, respS = some r → (fetchStablecoinChains stS now respS).fetched = true →
          (fetchStablecoinChains stS now respS).state =
            ⟨some (fetchStablecoinChains stS now respS).value, now⟩)
      ∧ (∀ r res, respF = some r → fngAssemble r = some res →
          (fetchFearGreedIndex stF now respF).fetched = true →
          (fetchFearGreedIndex stF now respF).state = ⟨some res, now⟩
          ∧ (fetchFearGreedIndex stF now respF).value = some res) := by
  intro stP stS stF now respP respS respF
  obtain ⟨pP, tP⟩ := stP
  obtain ⟨pS, tS⟩ := stS
  obtain ⟨pF, tF⟩ := stF
  refine ⟨?_, ?_, ?_, ?_, ?_, ?_, ?_, ?_, ?_, ?_⟩
  · cases pP with
    | none => cases respP <;> simp [fetchAllPools, fetchPoolsMiss]
    | some c =>
      by_cases h : now - tP < CACHE_TTL_5M
      · simp [fetchAllPools, h]
      · cases respP <;> simp [fetchAllPools, h, fetchPoolsMiss]
  · cases pS with
    | none => cases respS <;> simp [fetchStablecoinChains, fetchStableMiss]
    | some c =>
      by_cases h : now - tS < CACHE_TTL_5M
      · simp [fetchStablecoinChains, h]
      · cases respS <;> simp [fetchStablecoinChains, h, fetchStableMiss]
  · cases pF with
    | none =>
      cases respF with
      | none => simp [fetchFearGreedIndex, fetchFngMiss]
      | some r => cases h : fngAssemble r <;> simp [fetchFearGreedIndex, fetchFngMiss, h]
    | some c =>
      by_cases h : now - tF < CACHE_TTL_10M
      · simp [fetchFearGreedIndex, h]
      · cases respF with
        | none => simp [fetchFearGreedIndex, h, fetchFngMiss]
        | some r => cases h2 : fngAssemble r <;> simp [fetchFearGreedIndex, fetchFngMiss, h, h2]
  · intro r hr hf
    subst hr
    cases pP with
    | none => simp [fetchAllPools, fetchPoolsMiss]
    | some c =>
      by_cases h : now - tP < CACHE_TTL_5M
      · simp [fetchAllPools, h] at hf
      · simp [fetchAllPools, h, fetchPoolsMiss]
  · intro hr hf
    subst hr
    cases pP with
    | none => simp [fetchAllPools, fetchPoolsMiss]
    | some c =>
      by_cases h : now - tP < CACHE_TTL_5M
      · simp [fetchAllPools, h] at hf
      · simp [fetchAllPools, h, fetchPoolsMiss]
  · intro hr hf
    subst hr
    cases pS with
    | none => simp [fetchStablecoinChains, fetchStableMiss]
    | some c =>
      by_cases h : now - tS < CACHE_TTL_5M
      · simp [fetchStablecoinChains, h] at hf
      · simp [fetchStablecoinChains, h, fetchStableMiss]
  · intro hr hf
    subst hr
    cases pF with
    | none => simp [fetchFearGreedIndex, fetchFngMiss]
    | some c =>
      by_cases h : now - tF < CACHE_TTL_10M
      · simp [fetchFearGreedIndex, h] at hf
      · simp [fetchFearGreedIndex, h, fetchFngMiss]
  · intro r hr ha hf
    subst hr
    cases pF with
    | none => simp [fetchFearGreedIndex, fetchFngMiss, ha]
    | some c =>
      by_cases h : now - tF < CACHE_TTL_10M
      · simp [fetchFearGreedIndex, h] at hf
      · simp [fetchFearGreedIndex, h, fetchFngMiss, ha]
  · intro r hr hf
    subst hr
    cases pS with
    | none => simp [fetchStablecoinChains, fetchStableMiss]
    | some c =>
      by_cases h : now - tS < CACHE_TTL_5M
      · simp [fetchStablecoinChains, h] at hf
      · simp [fetchStablecoinChains, h, fetchStableMiss]
  · intro r res hr ha hf
    subst hr
    cases pF with
    | none => simp [fetchFearGreedIndex, fetchFngMiss, ha]
    | some c =>
      by_cases h : now - tF < CACHE_TTL_10M
      · simp [fetchFearGreedIndex, h] at hf
      · simp [fetchFearGreedIndex, h, fetchFngMiss, ha]

/-- Counterexample to claim C3 as stated: with a cold cache, a failed pool
fetch at time 1000 leaves the cache timestamp untouched, and a second get at
time 2000 — well inside the TTL window of the first attempt — issues another
fetch, so the down provider is re-fetched within the TTL window. -/
theorem c3_counterexample :
    (fetchAllPools initCache 1000 none).fetched = true
    ∧ (fetchAllPools initCache 1000 none).state = initCache
    ∧ (fetchAllPools (fetchAllPools initCache 1000 none).state 2000 none).fetched = true
    ∧ 2000 - (1000 : ℕ) < CACHE_TTL_5M := by
  refine ⟨rfl, rfl, rfl, by decide⟩

/-- Claim C4 (amended): the DefiLlama protocol-listing resolution follows the
three tiers exactly — explicit CHAIN_NAME_MAP mapping, then direct or
case-insensitive match against the provider key set, then the canonical name
itself — and never fails, and the stablecoin lookup resolves by direct then
case-insensitive key with default 0; but the DexScreener path falls back to
the lowercased canonical name rather than the name itself, and the CoinGecko
path resolves an unknown name to null (the fetch is skipped) rather than to
itself. -/
theorem c4_identity_resolution :
    ∀ (chainsResp : Option (List ChainRecord)) (name : String)
      (chains : List (String × StableRec)),
      (∀ info, objGet CHAIN_NAME_MAP name = some info →
        chainProtocolsName chainsResp name = jsOrS (some info.defillamaName) name)
      ∧ (objGet CHAIN_NAME_MAP name = none →
          (objGet (fetchChainTVLCore chainsResp) name).isSome →
          chainProtocolsName chainsResp name = name)
      ∧ (∀ k, objGet CHAIN_NAME_MAP name = none →
          objGet (fetchChainTVLCore chainsResp) name = none →
          ((fetchChainTVLCore chainsResp).map (fun p => p.1)).find?
            (fun k2 => jsToLower k2 == jsToLower name) = some k →
          chainProtocolsName chainsResp name = k ∧ jsToLower k = jsToLower name)
      ∧ (objGet CHAIN_NAME_MAP name = none →
          ((fetchChainTVLCore chainsResp).map (fun p => p.1)).find?
            (fun k2 => jsToLower k2 == jsToLower name) = none →
          chainProtocolsName chainsResp name = name)
      ∧ (∀ r, objGet chains name = some r →
          fetchChainStablecoinTVLCore chains name = r.totalCirculatingUSD)
      ∧ (objGet chains name = none →
          (chains.map (fun p => p.1)).find? (fun k => jsToLower k == jsToLower name) = none →
          fetchChainStablecoinTVLCore chains name = 0)
      ∧ (objGet DEXSCREENER_CHAIN_MAP name = none →
          dexscreenerChainId name = jsToLower name)
      ∧ (objGet COINGECKO_IDS name = none → getCoinGeckoId name = none) := by
  intro chainsResp name chains
  refine ⟨?_, ?_, ?_, ?_, ?_, ?_, ?_, ?_⟩
  · intro info hinfo
    simp [chainProtocolsName, hinfo]
  · intro hmap hdirect
    simp [chainProtocolsName, hmap, hdirect]
  · intro k hmap hdirect hfind
    constructor
    · simp [chainProtocolsName, hmap, hdirect, hfind]
    · have := List.find?_some hfind
      simpa using this
  · intro hmap hfind
    by_cases hdirect : (objGet (fetchChainTVLCore chainsResp) name).isSome
    · simp [chainProtocolsName, hmap, hdirect]
    · simp only [Bool.not_eq_true, Option.not_isSome, Option.isNone_iff_eq_none] at hdirect
      simp [chainProtocolsName, hmap, hdirect, hfind]
  · intro r hr
    simp [fetchChainStablecoinTVLCore, hr]
  · intro hget hfind
    simp [fetchChainStablecoinTVLCore, hget, hfind]
  · intro h
    simp [dexscreenerChainId, h, jsOrS]
  · intro h
    simp [getCoinGeckoId, h]

/-- An element read with `getD` at an in-bounds index is an element of the list. -/
theorem getD_mem {α : Type} (l : List α) (i : ℕ) (d : α) (h : i < l.length) :
    l.getD i d ∈ l := by
  induction l generalizing i with
  | nil => simp at h
  | cons x xs ih =>
    cases i with
    | zero => simp [List.getD]
    | succ n =>
      simp only [List.getD_cons_succ]
      exact List.mem_cons_of_mem _ (ih n (by simpa using h))

/-- The last element read with `getLastD` of a non-empty list is an element. -/
theorem getLastD_mem {α : Type} (l : List α) (d : α) (h : l ≠ []) :
    l.getLastD d ∈ l := by
  induction l with
  | nil => exact absurd rfl h
  | cons x xs ih =>
    cases hx : xs with
    | nil => simp [List.getLastD]
    | cons y ys =>
      subst hx
      have h2 := ih (by simp)
      rw [show (x :: y :: ys).getLastD d = (y :: ys).getLastD d from rfl]
      exact List.mem_cons_of_mem _ h2

/-- Counterexample to claim C4 as stated: for the unknown name Omega the
CoinGecko resolution yields null rather than the name itself, and the
DexScreener resolution of Omega Network yields the lowercased name, not the
canonical name. -/
theorem c4_counterexample :
    getCoinGeckoId ("Omega") = none
    ∧ dexscreenerChainId ("Omega Network") = "omega network"
    ∧ dexscreenerChainId ("Omega Network") ≠ "Omega Network" := by
  refine ⟨rfl, by decide, by decide⟩

/-- Claim C6 (amended): the `|| 0`-defaulted numeric fields are always defined
(the DEX-volume normalization of a parsed body always yields a result, with
every field a finite rational by construction), and the historical-TVL percent
changes and the fear-greed parseInt fields are defined whenever every tvl
point is present and nonzero, respectively whenever every entry's value string
parses as an integer; outside those conditions they can be NaN or Infinity. -/
theorem c6_numeric_defaults :
    (∀ (l : List HistPoint) (r : HistTvlResult),
      fetchChainHistoricalTVLCore (some l) = some r →
      (∀ p ∈ l, ∃ q, p.tvl = some q ∧ q ≠ 0) →
      r.change1d.isSome ∧ r.change7d.isSome)
    ∧ (∀ (entries : List FngEntry) (res : FngResult),
        fngAssemble ⟨some entries⟩ = some res →
        (∀ e ∈ entries, (parseIntOpt e.value).isSome) →
        res.value.isSome
        ∧ (1 < entries.length → res.previousValue.isSome ∧ res.change24h.isSome)
        ∧ (7 ≤ entries.length → res.weekAgoValue.isSome ∧ res.change7d.isSome))
    ∧ (∀ d : DexOverviewRecord, (fetchChainDEXVolumeCore (some d)).isSome) := by
  refine ⟨?_, ?_, ?_⟩
  · intro l r hr hall
    by_cases hemp : l.isEmpty
    · simp [fetchChainHistoricalTVLCore, hemp] at hr
    · simp only [fetchChainHistoricalTVLCore, hemp, Bool.false_eq_true, if_false,
        Option.some.injEq] at hr
      have hne : l ≠ [] := by simpa [List.isEmpty_iff] using hemp
      have hlatest : l.getLastD ⟨none⟩ ∈ l := getLastD_mem l ⟨none⟩ hne
      obtain ⟨qa, hqa, hqa0⟩ := hall _ hlatest
      have hday : (if 1 < l.length then l.getD (l.length - 2) ⟨none⟩ else l.getLastD ⟨none⟩) ∈ l := by
        by_cases h1 : 1 < l.length
        · simpa [h1] using getD_mem l (l.length - 2) ⟨none⟩ (by omega)
        · simpa [h1] using hlatest
      have hweek : (if 7 < l.length then l.getD (l.length - 8) ⟨none⟩ else l.getLastD ⟨none⟩) ∈ l := by
        by_cases h7 : 7 < l.length
        · simpa [h7] using getD_mem l (l.length - 8) ⟨none⟩ (by omega)
        · simpa [h7] using hlatest
      obtain ⟨qb, hqb, hqb0⟩ := hall _ hday
      obtain ⟨qc, hqc, hqc0⟩ := hall _ hweek
      subst hr
      simp only [List.getD_eq_getElem?_getD, List.getLastD_eq_getLast?] at hqa hqb hqc
      constructor
      · simp [jmulC, jdiv, jsub, hqa, hqb, hqb0]
      · simp [jmulC, jdiv, jsub, hqa, hqc, hqc0]
  · intro entries res hr hall
    by_cases hemp : entries.isEmpty
    · simp [fngAssemble, hemp] at hr
    · simp only [fngAssemble, hemp, Bool.false_eq_true, if_false, Option.some.injEq] at hr
      have hne : entries ≠ [] := by simpa [List.isEmpty_iff] using hemp
      have hlen0 : 0 < entries.length := List.length_pos.mpr hne
      have hcur : entries.getD 0 default ∈ entries := getD_mem entries 0 default hlen0
      have hcurSome := hall _ hcur
      subst hr
      refine ⟨by simpa using hcurSome, ?_, ?_⟩
      · intro h1
        have hprev : entries.getD 1 default ∈ entries := getD_mem entries 1 default h1
        have hprevSome := hall _ hprev
        constructor
        · simp only [h1, if_true]
          simpa using hprevSome
        · simp only [h1, if_true, Option.bind_some]
          rcases Option.isSome_iff_exists.mp hcurSome with ⟨a, ha⟩
          rcases Option.isSome_iff_exists.mp hprevSome with ⟨b, hb⟩
          simp only [List.getD_eq_getElem?_getD] at ha hb
          simp [jsubZ, ha, hb]
      · intro h7
        have hweek : entries.getD 6 default ∈ entries := getD_mem entries 6 default (by omega)
        have hweekSome := hall _ hweek
        constructor
        · simp only [h7, if_pos]
          simpa using hweekSome
        · simp only [h7, if_pos, Option.bind_some]
          rcases Option.isSome_iff_exists.mp hcurSome with ⟨a, ha⟩
          rcases Option.isSome_iff_exists.mp hweekSome with ⟨b, hb⟩
          simp only [List.getD_eq_getElem?_getD] at ha hb
          simp [jsubZ, ha, hb]
  · intro d
    simp [fetchChainDEXVolumeCore]

/-- Witness for claim C6: two present nonzero tvl points give defined percent
changes, and an entry with a numeric value string gives a defined index. -/
theorem c6_numeric_defaults_witness :
    (fetchChainHistoricalTVLCore (some [⟨some 4⟩, ⟨some 5⟩])).isSome
    ∧ ((fngAssemble ⟨some [⟨some ("42"), none, none⟩]⟩).map (fun r => r.value.isSome))
        = some true := by
  constructor
  · rfl
  · have h := c6_numeric_defaults.2.1 [⟨some ("42"), none, none⟩]
      (⟨parseIntOpt (some ("42")), none, none, none, none, none, none, none⟩) rfl
      (by intro e he; simp at he; subst he; decide)
    have h2 := h.1
    rw [show fngAssemble ⟨some [⟨some ("42"), none, none⟩]⟩ =
      some ⟨parseIntOpt (some ("42")), none, none, none, none, none, none, none⟩ from rfl]
    simpa using h2

/-- Counterexample to claim C6 as stated: a historical response whose day-ago
tvl is zero makes the JS change1d computation divide by zero (Infinity), and a
fear-greed entry whose value string is non-numeric makes parseInt return NaN;
both are modelled as an undefined (`none`) numeric field in the returned
payload. -/
theorem c6_counterexample :
    ((fetchChainHistoricalTVLCore (some [⟨some 0⟩, ⟨some 5⟩])).map (fun r => r.change1d))
      = some none
    ∧ ((fngAssemble ⟨some [⟨some ("??"), none, none⟩]⟩).map (fun r => r.value))
      = some none := by
  constructor
  · rfl
  · rfl

/-- After any StatsCard lookup, the cache holds the returned snapshot under
the entity's name. -/
theorem statsCardLookup_stores (cache : List (String × Snapshot)) (now : ℕ) (w : FullWorld)
    (pcs : ProviderCaches) (net : NetworkLite) :
    objGet (statsCardLookup cache now w pcs net).cache net.name
      = some (statsCardLookup cache now w pcs net).snap := by
  unfold statsCardLookup statsCardRefresh
  cases hg : objGet cache net.name with
  | none => simp [objGet_objSet_self]
  | some c =>
    by_cases h : now - c.fetchedAt < CACHE_MAX_AGE
    · simp [h, hg]
    · simp [h, objGet_objSet_self]

/-- Claim C2: two snapshot lookups within the five-minute staleness window
return the identical cached snapshot (the second lookup performs no refresh,
leaves the cache untouched and observes the same fetchedAt), while a second
lookup past the staleness window refreshes and stores a snapshot whose
fetchedAt is now2, strictly greater than the earlier snapshot's fetchedAt. -/
theorem c2_snapshot_cache_window :
    ∀ (cache : List (String × Snapshot)) (now1 now2 : ℕ) (w1 w2 : FullWorld)
      (pcs : ProviderCaches) (net : NetworkLite),
      (now2 - (statsCardLookup cache now1 w1 pcs net).snap.fetchedAt < CACHE_MAX_AGE →
        statsCardLookup (statsCardLookup cache now1 w1 pcs net).cache now2 w2
            (statsCardLookup cache now1 w1 pcs net).pcs net
          = ⟨(statsCardLookup cache now1 w1 pcs net).snap,
             (statsCardLookup cache now1 w1 pcs net).cache,
             (statsCardLookup cache now1 w1 pcs net).pcs, false⟩)
      ∧ (CACHE_MAX_AGE ≤ now2 - (statsCardLookup cache now1 w1 pcs net).snap.fetchedAt →
          (statsCardLookup (statsCardLookup cache now1 w1 pcs net).cache now2 w2
              (statsCardLookup cache now1 w1 pcs net).pcs net).refreshed = true
          ∧ (statsCardLookup (statsCardLookup cache now1 w1 pcs net).cache now2 w2
              (statsCardLookup cache now1 w1 pcs net).pcs net).snap.fetchedAt = now2
          ∧ (statsCardLookup cache now1 w1 pcs net).snap.fetchedAt <
              (statsCardLookup (statsCardLookup cache now1 w1 pcs net).cache now2 w2
                (statsCardLookup cache now1 w1 pcs net).pcs net).snap.fetchedAt) := by
  intro cache now1 now2 w1 w2 pcs net
  have hstore := statsCardLookup_stores cache now1 w1 pcs net
  constructor
  · intro hhit
    generalize hg : statsCardLookup cache now1 w1 pcs net = r1 at hstore hhit ⊢
    unfold statsCardLookup
    rw [hstore]
    simp [hhit]
  · intro hstale
    have hcond : ¬ (now2 - (statsCardLookup cache now1 w1 pcs net).snap.fetchedAt
        < CACHE_MAX_AGE) := not_lt.mpr hstale
    have hlt : (statsCardLookup cache now1 w1 pcs net).snap.fetchedAt < now2 := by
      have hpos : 0 < CACHE_MAX_AGE := by decide
      omega
    generalize hg : statsCardLookup cache now1 w1 pcs net = r1 at hstore hcond hlt ⊢
    have hfa : statsCardLookup r1.cache now2 w2 r1.pcs net
        = statsCardRefresh r1.cache now2 w2 r1.pcs net := by
      unfold statsCardLookup
      rw [hstore]
      simp [hcond]
    refine ⟨by rw [hfa]; rfl, by rw [hfa]; rfl, ?_⟩
    rw [hfa]
    exact hlt

/-- Witness for claim C2: from an empty cache, a lookup at time 0 followed by
a lookup at time 1 is a cache hit returning the stored snapshot without a
refresh, and a lookup at time 300000 refreshes with a strictly larger
fetchedAt. -/
theorem c2_snapshot_cache_window_witness :
    (statsCardLookup (statsCardLookup [] 0 failWorld initCaches ⟨"Ethereum", none, none⟩).cache
        1 failWorld (statsCardLookup [] 0 failWorld initCaches ⟨"Ethereum", none, none⟩).pcs
        ⟨"Ethereum", none, none⟩).refreshed = false
    ∧ (statsCardLookup (statsCardLookup [] 0 failWorld initCaches ⟨"Ethereum", none, none⟩).cache
        300000 failWorld (statsCardLookup [] 0 failWorld initCaches ⟨"Ethereum", none, none⟩).pcs
        ⟨"Ethereum", none, none⟩).snap.fetchedAt = 300000 := by
  constructor
  · have h := (c2_snapshot_cache_window [] 0 1 failWorld failWorld initCaches
      ⟨"Ethereum", none, none⟩).1 (by decide)
    rw [h]
  · exact ((c2_snapshot_cache_window [] 0 300000 failWorld failWorld initCaches
      ⟨"Ethereum", none, none⟩).2 (by decide)).2.1

/-- Claim C7 (amended): the StatsCard code keeps no in-flight map, so stale
requests never converge on an existing refresh: from a cold cache, a burst of
requests with no completion between them launches one provider fetch round
per request, all simultaneously in flight. -/
theorem c7_no_request_coalescing :
    ∀ (times : List ℕ),
      (uiRun uiInit (times.map UiEvent.request)).fetchRounds = times.length
      ∧ (uiRun uiInit (times.map UiEvent.request)).inFlight = times.length := by
  have key : ∀ (times : List ℕ) (i f : ℕ),
      uiRun ⟨none, i, f⟩ (times.map UiEvent.request) = ⟨none, i + times.length, f + times.length⟩ := by
    intro times
    induction times with
    | nil => intro i f; simp [uiRun]
    | cons t ts ih =>
      intro i f
      have hstep : uiStep ⟨none, i, f⟩ (UiEvent.request t) = ⟨none, i + 1, f + 1⟩ := rfl
      simp only [List.map_cons, uiRun, List.foldl_cons, hstep]
      have := ih (i + 1) (f + 1)
      simp only [uiRun] at this
      rw [this]
      simp only [List.length_cons, UiState.mk.injEq]
      refine ⟨trivial, by omega, by omega⟩
  intro times
  have h := key times 0 0
  simp only [uiRun] at h ⊢
  rw [show uiInit = (⟨none, 0, 0⟩ : UiState) from rfl, h]
  simp

/-- Counterexample to claim C7 as stated: with one refresh already in flight
after a first request, a second request for the same stale entity launches a
second provider fetch round instead of converging on the in-flight one. -/
theorem c7_counterexample :
    (uiRun uiInit [UiEvent.request 0]).inFlight = 1
    ∧ (uiRun uiInit [UiEvent.request 0, UiEvent.request 1]).fetchRounds = 2 := by
  constructor <;> rfl

/-- The second component of an enumerated element is an element of the list. -/
theorem snd_mem_of_mem_enumFrom {α : Type} (l : List α) (n : ℕ) (p : ℕ × α)
    (h : p ∈ l.enumFrom n) : p.2 ∈ l := by
  induction l generalizing n with
  | nil => simp [List.enumFrom] at h
  | cons x xs ih =>
    simp only [List.enumFrom, List.mem_cons] at h
    rcases h with h | h
    · subst h; simp
    · exact List.mem_cons_of_mem _ (ih (n + 1) h)

/-- Claim C9: the roster is append-only for the session: every statically
defined base network is still present after the dynamic-discovery update, with
its name, color and position preserved and the base order intact, and every
appended entity comes from the TVL provider's listing, is not a base name, and
has TVL above the one-hundred-million threshold; nothing is removed. -/
theorem c9_roster_append_only :
    ∀ {C P : Type} (base : List (Network C P)) (analytics : List (String × AnalyticsRec))
      (tvlData : List (String × TvlRec)) (resp : Option (List ChainRecord))
      (genColor : String → C) (genPos : ℕ → P),
      (∀ n ∈ base, ∃ n2 ∈ loadAnalyticsRoster base analytics tvlData
          (fetchAllChainsCore resp) genColor genPos,
          n2.name = n.name ∧ n2.color = n.color ∧ n2.pos = n.pos)
      ∧ ((loadAnalyticsRoster base analytics tvlData (fetchAllChainsCore resp)
            genColor genPos).map (fun n => n.name)).take base.length
          = base.map (fun n => n.name)
      ∧ (∀ m ∈ (loadAnalyticsRoster base analytics tvlData (fetchAllChainsCore resp)
            genColor genPos).drop base.length,
          ∃ c ∈ fetchAllChainsCore resp,
            m.name = c.name ∧ c.name ∉ base.map (fun n => n.name) ∧ 100000000 < c.tvl) := by
  intro C P base analytics tvlData resp genColor genPos
  refine ⟨?_, ?_, ?_⟩
  · intro n hn
    refine ⟨updateBaseNetwork analytics tvlData n, ?_, rfl, rfl, rfl⟩
    exact List.mem_append_left _ (List.mem_map_of_mem _ hn)
  · unfold loadAnalyticsRoster
    rw [List.map_append]
    have hlen : ((base.map (updateBaseNetwork analytics tvlData)).map
        (fun n => n.name)).length = base.length := by simp
    rw [← hlen, List.take_left]
    rw [List.map_map]
    rfl
  · intro m hm
    unfold loadAnalyticsRoster at hm
    have hlen : (base.map (updateBaseNetwork analytics tvlData)).length = base.length := by simp
    rw [← hlen, List.drop_left] at hm
    simp only [List.mem_map] at hm
    obtain ⟨p, hp, rfl⟩ := hm
    have hmem := snd_mem_of_mem_enumFrom _ 0 p hp
    rw [List.mem_filter] at hmem
    obtain ⟨hchains, hcond⟩ := hmem
    simp only [Bool.and_eq_true, Bool.not_eq_true', decide_eq_true_eq] at hcond
    refine ⟨p.2, hchains, rfl, ?_, hcond.2⟩
    intro hin
    have hconts : (base.map (fun n => n.name)).contains p.2.name = true := by
      simpa [List.contains, List.elem_iff] using hin
    rw [hcond.1] at hconts
    cases hconts

/-- With an empty TVL map, every lookup tier of `fetchNetworkDetails`'
resolution misses. -/
theorem detailsResolve_nil (name : String) : (detailsResolve [] name).1 = none := by
  unfold detailsResolve
  cases hinfo : objGet CHAIN_NAME_MAP name with
  | none => simp [objGet]
  | some info =>
    have hfind : info.altNames.find? (fun _ => false) = none := by
      rw [List.find?_eq_none]
      intro x _
      simp
    simp [objGet, hfind]

/-- When the CoinGecko fetch fails, `fetchNetworkCoinData` returns null for
every network name and every passed geckoId. -/
theorem fetchNetworkCoinDataCore_none (name : String) (g : Option String) :
    fetchNetworkCoinDataCore none name g = none := by
  unfold fetchNetworkCoinDataCore
  cases g with
  | none =>
    cases h : getCoinGeckoId name with
    | none => simp [h]
    | some cid => simp [h]
  | some gv =>
    by_cases hg : gv = ""
    · cases h : getCoinGeckoId name with
      | none => simp [hg, h]
      | some cid => simp [hg, h]
    · simp [hg]

/-- Claim C1: for every entity, when every provider call fails the snapshot
build still returns a composite snapshot with each field at its documented
default — TVL 0, price null, liquidity null, stablecoin 0, yields null,
sentiment null — stamped with the build time; the build is a total function,
so no exception reaches the caller. -/
theorem c1_all_providers_fail :
    ∀ (net : NetworkLite) (now : ℕ),
      ((buildSnapshot failWorld now initCaches net).1.detailedData.map (fun d => d.tvl))
          = some 0
      ∧ (buildSnapshot failWorld now initCaches net).1.priceData = none
      ∧ (buildSnapshot failWorld now initCaches net).1.dexScreenerData = none
      ∧ (buildSnapshot failWorld now initCaches net).1.stablecoinData = 0
      ∧ (buildSnapshot failWorld now initCaches net).1.yieldData = none
      ∧ (buildSnapshot failWorld now initCaches net).1.fearGreedData = none
      ∧ (buildSnapshot failWorld now initCaches net).1.fetchedAt = now := by
  intro net now
  have htvl0 : fetchChainTVLCore (failWorld.base.chainsResp) = [] := rfl
  have hres : (detailsResolve (fetchChainTVLCore failWorld.base.chainsResp) net.name).1
      = none := by
    rw [htvl0]
    exact detailsResolve_nil net.name
  have hdetail : (fetchNetworkDetailsCore failWorld.base net.name).tvl = 0 := by
    simp [fetchNetworkDetailsCore, hres, jsOrQ]
  refine ⟨?_, ?_, rfl, rfl, rfl, rfl, rfl⟩
  · show Option.map (fun d => d.tvl) (some (fetchNetworkDetailsCore failWorld.base net.name))
        = some 0
    simp [hdetail]
  · exact fetchNetworkCoinDataCore_none net.name net.geckoId

end NetworkOrb
